import Mathlib

/-!
Shallow embedding of the rubydns plugin execution substrate
(src/rubydns/src/plugins/{mod.rs, pool.rs, host_helper/mod.rs,
host_helper/udp.rs, host_helper/tcp.rs} and src/rubydns/src/server.rs).

Byte strings are `List Nat`; time instants are `Nat` (an `Instant` as a
point on a monotone clock); native OS effects (socket syscalls, file
reads, wasm execution) are passed in as explicit oracle arguments so the
host-side control flow stays exactly as in the source.
-/

namespace Rubydns

abbrev Bytes := List Nat

/-! ### Shared KV map (host_helper/mod.rs, map_set / map_get / map_remove)

The `DashMap<Bytes, StoreValue>` is embedded as an association list with
insert-replaces semantics; `Instant` is a `Nat` and the current time is an
explicit argument where the source calls `Instant::now()`. -/

structure StoreValue where
  data : Bytes
  timeout : Option Nat
  deriving Repr, DecidableEq

abbrev SharedMap := List (Bytes × StoreValue)

def mapFind : SharedMap → Bytes → Option StoreValue
  | [], _ => none
  | (k', v) :: rest, k => if k' = k then some v else mapFind rest k

def mapErase (m : SharedMap) (k : Bytes) : SharedMap :=
  m.filter (fun e => e.1 ≠ k)

def mapInsert (m : SharedMap) (k : Bytes) (v : StoreValue) : SharedMap :=
  (k, v) :: mapErase m k

/-- `HostHelper::map_set`: upsert of `StoreValue { data, timeout }` where
`timeout = ttl.map (fun t => now + t)` embeds
`timeout.map(|timeout| Instant::now() + Duration::from_secs(timeout))`. -/
def map_set (m : SharedMap) (now : Nat) (key value : Bytes) (ttl : Option Nat) :
    SharedMap :=
  mapInsert m key ⟨value, ttl.map (fun t => now + t)⟩

/-- `HostHelper::map_get`: look the key up; if the entry has a timeout and
`Instant::now().checked_duration_since(timeout).is_some()` (that is,
`timeout ≤ now`), remove the entry and return `none`; otherwise return the
stored data. Returns the result together with the possibly updated map. -/
def map_get (m : SharedMap) (now : Nat) (key : Bytes) :
    Option Bytes × SharedMap :=
  match mapFind m key with
  | none => (none, m)
  | some v =>
    match v.timeout with
    | some t => if t ≤ now then (none, mapErase m key) else (some v.data, m)
    | none => (some v.data, m)

/-- `HostHelper::map_remove`. -/
def map_remove (m : SharedMap) (key : Bytes) : SharedMap :=
  mapErase m key

theorem mapFind_mapErase_self (m : SharedMap) (k : Bytes) :
    mapFind (mapErase m k) k = none := by
  induction m with
  | nil => rfl
  | cons e rest ih =>
    by_cases h : e.1 = k
    · simpa [mapErase, List.filter, h] using ih
    · simpa [mapErase, List.filter, h, mapFind] using ih

theorem mapFind_mapInsert_self (m : SharedMap) (k : Bytes) (v : StoreValue) :
    mapFind (mapInsert m k v) k = some v := by
  simp [mapInsert, mapFind]

/-! ### DNS messages (the trust_dns_proto `Message` surface the core uses)

The wire codec is an external black-box library; only the fields the
core touches are embedded: id, message type, response code, question
section and answer section. `to_vec` is a concrete injective flat
encoding (total here: encoding an in-memory message succeeds), and
`from_vec` is a partial decoder that fails on malformed bytes just as
`Message::from_vec` can. -/

inductive MessageType where
  | query
  | response
  deriving Repr, DecidableEq

/-- DNS response codes as their wire RCODE values (`ResponseCode::ServFail`
is 2). -/
def SERVFAIL : Nat := 2

structure Message where
  id : Nat
  messageType : MessageType
  responseCode : Nat
  queries : List Bytes
  answers : List Bytes
  deriving Repr, DecidableEq

def MessageType.tag : MessageType → Nat
  | .query => 0
  | .response => 1

def encodeSection (s : Bytes) : Bytes := s.length :: s

/-- `Message::to_vec`: header fields, then length-prefixed question and
answer entries. -/
def Message.toVec (m : Message) : Bytes :=
  m.id :: m.messageType.tag :: m.responseCode :: m.queries.length ::
    m.answers.length ::
    ((m.queries.map encodeSection).flatten ++ (m.answers.map encodeSection).flatten)

def decodeSections : Nat → Bytes → Option (List Bytes × Bytes)
  | 0, rest => some ([], rest)
  | _ + 1, [] => none
  | n + 1, len :: rest =>
    if len ≤ rest.length then
      (decodeSections n (rest.drop len)).map (fun p => (rest.take len :: p.1, p.2))
    else
      none

def decodeMessageType : Nat → Option MessageType
  | 0 => some .query
  | 1 => some .response
  | _ => none

/-- `Message::from_vec`: parse the layout produced by `Message.toVec`,
failing on anything malformed. -/
def Message.fromVec (bytes : Bytes) : Option Message :=
  match bytes with
  | id :: typeTag :: rcode :: qCount :: aCount :: rest =>
    match decodeMessageType typeTag with
    | none => none
    | some mt =>
      match decodeSections qCount rest with
      | none => none
      | some (qs, rest') =>
        match decodeSections aCount rest' with
        | none => none
        | some (as_, rest'') =>
          if rest'' = [] then
            some ⟨id, mt, rcode, qs, as_⟩
          else
            none
  | _ => none

/-! ### Plugin instances and `PluginChain::handle_dns` (plugins/mod.rs)

A pooled plugin object is `(Rubydns, Store<HostHelper>)`; what
`handle_dns` uses of it is `plugin.plugin().call_run(store, packet)`,
whose outcome is host-level failure (`wasmtime::Error`, modelled as a
`String`), a guest-declared `PluginError`, or response bytes. -/

structure PluginError where
  code : Nat
  msg : String
  deriving Repr, DecidableEq

/-- One pooled plugin instance; `run` embeds
`plugin.plugin().call_run(store, packet)`: `Except.error` is the
host-level `wasmtime::Error`, the inner value is the guest's
`result<bytes, PluginError>`. -/
structure PluginInstance where
  run : Bytes → Except String (Except PluginError Bytes)

inductive HandleError where
  | pluginRun (err : String)
  | proto (err : String)
  | pluginPool (err : String)
  deriving Repr, DecidableEq

/-- Lines 97-98 of plugins/mod.rs (also server.rs lines 85-86):
`dns_message.set_message_type(MessageType::Response)` then
`dns_message.set_response_code(ResponseCode::ServFail)`. All other
fields of the request message are left as they are. -/
def servfailMessage (m : Message) : Message :=
  { m with messageType := .response, responseCode := SERVFAIL }

/-- `PluginChain::handle_dns`. The pool acquisition
`self.plugin.get_plugin().await` is the `getPlugin` argument
(`Except.error` is the deadpool acquisition failure). -/
def handle_dns (getPlugin : Except String PluginInstance) (dns_message : Message)
    (dns_packet : Bytes) : Except HandleError (Message × Bytes) :=
  match getPlugin with
  | .error e => .error (.pluginPool e)
  | .ok plugin =>
    match plugin.run dns_packet with
    | .error err => .error (.pluginRun err)
    | .ok (.error _err) =>
      let m := servfailMessage dns_message
      .ok (m, m.toVec)
    | .ok (.ok data) =>
      match Message.fromVec data with
      | none => .error (.proto "decode response dns message failed")
      | some response_message => .ok (response_message, data)

/-- `ServerInner::handle` (server.rs lines 70-99), restricted to the bytes
handed to `udp_handler.respond`: an `Err` from `handle_dns` is turned into
the SERVFAIL synthesis from the request message; an `Ok` response is
forwarded as is. -/
def serverRespondBytes (getPlugin : Except String PluginInstance)
    (dns_message : Message) (dns_packet : Bytes) : Bytes :=
  match handle_dns getPlugin dns_message dns_packet with
  | .error _ => (servfailMessage dns_message).toVec
  | .ok (_, response) => response

/-! ### Pseudo-fd tables (host_helper/udp.rs and host_helper/tcp.rs)

Each helper owns a `HashMap<u32, socket>`; embedded as association lists
over `Nat` fds with insert-replaces semantics. Native sockets are
identified by a `Nat` tag. Errnos are Linux values. -/

def EBADF : Nat := 9
def ENOTSUP : Nat := 95

def fdFind {α : Type} : List (Nat × α) → Nat → Option α
  | [], _ => none
  | (fd', v) :: rest, fd => if fd' = fd then some v else fdFind rest fd

def fdErase {α : Type} (m : List (Nat × α)) (fd : Nat) : List (Nat × α) :=
  m.filter (fun e => e.1 ≠ fd)

def fdInsert {α : Type} (m : List (Nat × α)) (fd : Nat) (v : α) : List (Nat × α) :=
  (fd, v) :: fdErase m fd

theorem fdFind_fdErase_self {α : Type} (m : List (Nat × α)) (fd : Nat) :
    fdFind (fdErase m fd) fd = none := by
  induction m with
  | nil => rfl
  | cons e rest ih =>
    by_cases h : e.1 = fd
    · simpa [fdErase, List.filter, h] using ih
    · simpa [fdErase, List.filter, h, fdFind] using ih

theorem fdFind_fdInsert_self {α : Type} (m : List (Nat × α)) (fd : Nat) (v : α) :
    fdFind (fdInsert m fd v) fd = some v := by
  simp [fdInsert, fdFind]

structure Addr where
  addr : Nat
  port : Nat
  deriving Repr, DecidableEq

/-! #### UDP helper (host_helper/udp.rs) -/

structure UdpHelper where
  fd_map : List (Nat × Nat)
  deriving Repr, DecidableEq

/-- `UdpHelper::inner_bind`; the OS outcome of `UdpSocket::bind` is the
oracle `os` (errno, or the native fd of the new socket). -/
def UdpHelper.inner_bind (h : UdpHelper) (os : Except Nat Nat) :
    Except Nat Nat × UdpHelper :=
  match os with
  | .error e => (.error e, h)
  | .ok fd => (.ok fd, ⟨fdInsert h.fd_map fd fd⟩)

/-- `UdpHelper::inner_recv`: bad fd is rejected first; then a buffer of
`buf_size` bytes is allocated, the socket fills at most that many bytes
of the pending datagram `d` (so the kernel delivers `d.take buf_size`)
and returns the count `n`, and the buffer is truncated to `n`. The OS
outcome of `recv` is the oracle `os`: errno, or the pending datagram. -/
def UdpHelper.inner_recv (h : UdpHelper) (fd : Nat) (buf_size : Nat)
    (os : Except Nat Bytes) : Except Nat Bytes :=
  match fdFind h.fd_map fd with
  | none => .error EBADF
  | some _ =>
    match os with
    | .error e => .error e
    | .ok d => .ok (d.take buf_size)

/-- `UdpHelper::reset`: `self.fd_map.clear()`. -/
def UdpHelper.reset (_h : UdpHelper) : UdpHelper := ⟨[]⟩

/-! #### TCP helper (host_helper/tcp.rs) -/

inductive Tcp where
  | stream (sock : Nat)
  | listener (sock : Nat)
  deriving Repr, DecidableEq

structure TcpHelper where
  fd_map : List (Nat × Tcp)
  deriving Repr, DecidableEq

/-- `TcpHelper::inner_bind`; the oracle is the OS outcome of
`TcpListener::bind` (errno, or the native fd). -/
def TcpHelper.inner_bind (h : TcpHelper) (os : Except Nat Nat) :
    Except Nat Nat × TcpHelper :=
  match os with
  | .error e => (.error e, h)
  | .ok fd => (.ok fd, ⟨fdInsert h.fd_map fd (.listener fd)⟩)

/-- `TcpHelper::inner_connect`; the oracle is the OS outcome of
`TcpStream::connect`. -/
def TcpHelper.inner_connect (h : TcpHelper) (os : Except Nat Nat) :
    Except Nat Nat × TcpHelper :=
  match os with
  | .error e => (.error e, h)
  | .ok fd => (.ok fd, ⟨fdInsert h.fd_map fd (.stream fd)⟩)

/-- OS outcome of `listener.accept()`: errno, or the accepted stream's
native fd and peer address, with a flag telling whether the peer address
is IPv4 (`get_ipv4_be` yields `ENOTSUP` on IPv6). -/
inductive OsAccept where
  | err (errno : Nat)
  | conn (newFd : Nat) (peer : Addr) (isV4 : Bool)

/-- `TcpHelper::inner_accept`: a missing fd or a `Tcp::Stream` fd gives
`EBADF` before any OS call; on an accepted connection the stream is
inserted into the fd map first, and only then is the peer address
converted (so an IPv6 peer errors with `ENOTSUP` after the insert, as in
the source). -/
def TcpHelper.inner_accept (h : TcpHelper) (fd : Nat) (os : OsAccept) :
    Except Nat (Nat × Addr) × TcpHelper :=
  match fdFind h.fd_map fd with
  | none => (.error EBADF, h)
  | some (.stream _) => (.error EBADF, h)
  | some (.listener _) =>
    match os with
    | .err e => (.error e, h)
    | .conn newFd peer isV4 =>
      let h' : TcpHelper := ⟨fdInsert h.fd_map newFd (.stream newFd)⟩
      if isV4 then (.ok (newFd, peer), h') else (.error ENOTSUP, h')

/-- `TcpHelper::get_tcp_stream`: missing fd or listener fd is `EBADF`. -/
def TcpHelper.get_tcp_stream (h : TcpHelper) (fd : Nat) : Except Nat Nat :=
  match fdFind h.fd_map fd with
  | none => .error EBADF
  | some (.listener _) => .error EBADF
  | some (.stream sock) => .ok sock

/-- `TcpHelper::inner_write`; the oracle is the OS outcome of
`stream.write` (errno, or the sent count). -/
def TcpHelper.inner_write (h : TcpHelper) (fd : Nat) (_buf : Bytes)
    (os : Except Nat Nat) : Except Nat Nat :=
  match h.get_tcp_stream fd with
  | .error e => .error e
  | .ok _ => os

/-- `TcpHelper::inner_flush`; the oracle is the OS outcome of
`stream.flush`. -/
def TcpHelper.inner_flush (h : TcpHelper) (fd : Nat)
    (os : Except Nat Unit) : Except Nat Unit :=
  match h.get_tcp_stream fd with
  | .error e => .error e
  | .ok _ => os

/-- `TcpHelper::inner_read`: like `UdpHelper.inner_recv`, a `buf_size`
buffer is filled with at most `buf_size` bytes of the stream's pending
data and truncated to the returned count. -/
def TcpHelper.inner_read (h : TcpHelper) (fd : Nat) (buf_size : Nat)
    (os : Except Nat Bytes) : Except Nat Bytes :=
  match h.get_tcp_stream fd with
  | .error e => .error e
  | .ok _ =>
    match os with
    | .error e => .error e
    | .ok d => .ok (d.take buf_size)

/-- `<TcpHelper as Host>::close`: `self.fd_map.remove(&fd)`; always
succeeds, even on an unknown fd. -/
def TcpHelper.close (h : TcpHelper) (fd : Nat) : TcpHelper :=
  ⟨fdErase h.fd_map fd⟩

/-- `TcpHelper::reset`: `self.fd_map.clear()`. -/
def TcpHelper.reset (_h : TcpHelper) : TcpHelper := ⟨[]⟩

/-! ### Plugin pools and the chain (plugins/pool.rs and plugins/mod.rs)

The static structure of a `PluginPool` — the manager's compiled plugin
binary, its raw config text and its `next_plugin` handle — is the
inductive `PluginPoolM`; because each pool holds its downstream pool by
value here, the `next_plugin` references form a line by construction. -/

inductive PluginPoolM where
  | mk (plugin_binary : Bytes) (raw_config : String) (next_plugin : Option PluginPoolM)

def PluginPoolM.plugin_binary : PluginPoolM → Bytes
  | .mk b _ _ => b

def PluginPoolM.raw_config : PluginPoolM → String
  | .mk _ c _ => c

def PluginPoolM.next_plugin : PluginPoolM → Option PluginPoolM
  | .mk _ _ n => n

/-- The pools of a chain in order, starting at the head and following
`next_plugin` to the last pool (whose `next_plugin` is absent), each as
its (plugin_binary, raw_config) pair. -/
def PluginPoolM.poolList : PluginPoolM → List (Bytes × String)
  | .mk b c none => [(b, c)]
  | .mk b c (some p) => (b, c) :: p.poolList

/-! ### Host state and recycle (host_helper/mod.rs and pool.rs) -/

/-- u64::MAX, the fuel injected by `store.out_of_fuel_async_yield`. -/
def U64MAX : Nat := 2 ^ 64 - 1

/-- `HostHelper` (host_helper/mod.rs lines 22-29), without the opaque
`wasi_ctx` capability bundle. `raw_config` is the `Arc<String>` contents;
`plugin_store_map` stands for the shared `Arc<DashMap<..>>` handle. -/
structure HostHelper where
  raw_config : String
  udp_helper : UdpHelper
  tcp_helper : TcpHelper
  next_plugin : Option PluginPoolM
  plugin_store_map : SharedMap

/-- `HostHelper::reset`: `self.udp_helper.reset(); self.tcp_helper.reset();`
and nothing else. -/
def HostHelper.reset (h : HostHelper) : HostHelper :=
  { h with udp_helper := h.udp_helper.reset, tcp_helper := h.tcp_helper.reset }

/-- The `Store<HostHelper>` as far as `Manager::recycle` touches it: the
host data plus the cooperative fuel configuration set by
`store.out_of_fuel_async_yield(u64::MAX, 10000)`. -/
structure StoreM where
  data : HostHelper
  injected_fuel : Nat
  yield_interval : Nat

/-- `Manager::recycle` (pool.rs lines 133-139): reset the host state and
re-arm the cooperative-yield budget; the plugin component itself is kept. -/
def Manager.recycle (obj : PluginInstance × StoreM) : PluginInstance × StoreM :=
  (obj.1, { data := obj.2.data.reset, injected_fuel := U64MAX, yield_interval := 10000 })

/-! ### `call_next_plugin` (host_helper/mod.rs lines 72-91)

The operational view of a pool is its deadpool state: a free-list of
idle instances plus the manager's fallible `create`. `get_plugin` hands
out the most recent idle instance or manufactures a new one; dropping the
pool object puts the instance back on the free-list. -/

structure PoolSt where
  idle : List PluginInstance
  create : Except String PluginInstance

/-- `PluginPool::get_plugin` / `Pool::get`: reuse an idle instance
(LIFO), else run the manager's `create`; either can leave the pool
unchanged or shrunk, and `create` may fail. -/
def PoolSt.acquire (p : PoolSt) : Except String (PluginInstance × PoolSt) :=
  match p.idle with
  | inst :: rest => .ok (inst, { p with idle := rest })
  | [] =>
    match p.create with
    | .error e => .error e
    | .ok inst => .ok (inst, p)

/-- Dropping the deadpool `Object`: the instance goes back on the
pool's free-list. -/
def PoolSt.giveBack (p : PoolSt) (inst : PluginInstance) : PoolSt :=
  { p with idle := inst :: p.idle }

inductive NextPluginError where
  | pool (err : String)
  | run (err : String)
  deriving Repr, DecidableEq

/-- `HostHelper::call_next_plugin`: `None` next pool returns `Ok(None)`
at once; otherwise an instance is acquired (failure propagates), its
`run` is invoked (host-level failure propagates via `?`), and in every
case in which an instance was acquired it is back in the pool when the
call returns — the guard drops both on the early `?` return and on the
normal return. The final pool state is the second component. -/
def call_next_plugin (next : Option PoolSt) (dns_packet : Bytes) :
    Except NextPluginError (Option (Except PluginError Bytes)) × Option PoolSt :=
  match next with
  | none => (.ok none, none)
  | some pool =>
    match pool.acquire with
    | .error e => (.error (.pool e), some pool)
    | .ok (inst, pool') =>
      match inst.run dns_packet with
      | .error e => (.error (.run e), some (pool'.giveBack inst))
      | .ok result => (.ok (some result), some (pool'.giveBack inst))

/-! ### `PluginChain::new` (plugins/mod.rs lines 43-70)

Paths are strings; `Path::join` inserts a separator and `PathBuf::from`
is the identity. File system reads (`fs::read`) and the
config validation a `PluginPool::new` performs (`validate_config`, which
instantiates one isolate and calls the guest's `valid_config`) are
oracle arguments. -/

abbrev Path := String

def pathJoin (dir file : String) : Path := dir ++ "/" ++ file

/-- `config::Plugin`: `name`, optional `plugin_path`, and the flattened
plugin-specific sub-mapping, here already in its re-serialized YAML text
form (the output of `serde_yaml::to_string(&plugin_config.config)`). -/
structure PluginConfig where
  name : String
  plugin_path : Option String
  config : String
  deriving Repr, DecidableEq

/-- Lines 54-57 of plugins/mod.rs: with no `plugin_path` the module file
is `plugin_dir.join(plugin_config.name + ".wasm")`; with a `plugin_path`
it is `PathBuf::from(plugin_path + ".wasm")`. -/
def resolvePluginPath (plugin_dir : Path) (cfg : PluginConfig) : Path :=
  match cfg.plugin_path with
  | none => pathJoin plugin_dir (cfg.name ++ ".wasm")
  | some plugin_path => plugin_path ++ ".wasm"

/-- One step of the `try_fold` closure (lines 52-64): resolve the path,
read the module bytes, build the pool over the accumulated downstream
pool and validate its config. `fsRead` is `fs::read`; `validate` is the
`valid_config` gate of `PluginPool::new` on (binary, raw config). -/
def stepBuild (fsRead : Path → Except String Bytes)
    (validate : Bytes → String → Except String Unit)
    (plugin_dir : Path) (next_plugin : Option PluginPoolM)
    (cfg : PluginConfig) : Except String PluginPoolM :=
  match fsRead (resolvePluginPath plugin_dir cfg) with
  | .error e => .error e
  | .ok plugin_binary =>
    match validate plugin_binary cfg.config with
    | .error e => .error e
    | .ok _ => .ok (.mk plugin_binary cfg.config next_plugin)

/-- `stream::iter(...).try_fold(None, ...)`: the accumulator starts at
`None` and each successfully built pool becomes the next step's
`next_plugin`. -/
def foldChain (fsRead : Path → Except String Bytes)
    (validate : Bytes → String → Except String Unit) (plugin_dir : Path) :
    List PluginConfig → Option PluginPoolM → Except String (Option PluginPoolM)
  | [], acc => .ok acc
  | cfg :: rest, acc =>
    match stepBuild fsRead validate plugin_dir acc cfg with
    | .error e => .error e
    | .ok pool => foldChain fsRead validate plugin_dir rest (some pool)

inductive NewResult where
  | failed (err : String)
  | noPluginSet
  | built (chain : PluginPoolM)

/-- `PluginChain::new`: fold over `configs.into_iter().rev()`, then
`.expect("no plugin set")` on the resulting `Option` — an empty config
list makes the accumulator come back as `None` and the constructor
panics (`NewResult.noPluginSet`) rather than returning an error value. -/
def pluginChainNew (fsRead : Path → Except String Bytes)
    (validate : Bytes → String → Except String Unit) (plugin_dir : Path)
    (configs : List PluginConfig) : NewResult :=
  match foldChain fsRead validate plugin_dir configs.reverse none with
  | .error e => .failed e
  | .ok none => .noPluginSet
  | .ok (some chain) => .built chain

/-- Modelled from the spec: the pools a chain built from `configs` should
contain, in config order — for each config, the module bytes read from
its resolved path paired with its re-serialized config text (`none` when
some read fails). This is the spec-side description of §4.5 steps 1-4,
to be compared with `PluginPoolM.poolList` of what `pluginChainNew`
builds. -/
def specChainPools (fsRead : Path → Except String Bytes) (plugin_dir : Path) :
    List PluginConfig → Option (List (Bytes × String))
  | [] => some []
  | cfg :: rest =>
    match fsRead (resolvePluginPath plugin_dir cfg), specChainPools fsRead plugin_dir rest with
    | .ok b, some l => some ((b, cfg.config) :: l)
    | _, _ => none

/-- The pool list of an optional pool (`[]` for the absent pool). -/
def optPoolList : Option PluginPoolM → List (Bytes × String)
  | none => []
  | some p => p.poolList

/-! ### Concrete sample values used by witnesses and counterexamples -/

/-- A sample request message: a plain query with one question and no
answer records. -/
def exMessage : Message := ⟨7, .query, 0, [[3, 1, 2]], []⟩

/-- A request message that carries one answer record (the wire format
permits answers in a request, and `Message::from_vec` parses them). -/
def exAnswerMessage : Message := ⟨7, .query, 0, [[3, 1, 2]], [[9, 9]]⟩

/-- A plugin instance whose guest `run` declares failure with
`PluginError { code: 1, msg: "x" }`. -/
def exErrPlugin : PluginInstance := ⟨fun _ => .ok (.error ⟨1, "x"⟩)⟩

/-- A plugin instance whose guest `run` succeeds with fixed bytes. -/
def exOkPlugin : PluginInstance := ⟨fun _ => .ok (.ok (Message.toVec ⟨7, .response, 0, [[3, 1, 2]], [[4]]⟩))⟩

/-- Sample pool contents for the `call_next_plugin` witness. -/
def cnpInst : PluginInstance := ⟨fun _ => .ok (.ok [7])⟩

def cnpPool : PoolSt := ⟨[cnpInst], .error "no create"⟩

def cnpPoolDrained : PoolSt := ⟨[], .error "no create"⟩

/-! ### Helper lemmas -/

theorem poolList_length_pos (p : PluginPoolM) : 1 ≤ p.poolList.length := by
  cases p with
  | mk b c next =>
    cases next <;> simp [PluginPoolM.poolList]

/-! ### Claim theorems -/

/-- Claim C2: `map_set(K, V, Some(T))` at time `t0` stores `V` with expiry
`t0 + T`; a later `map_get(K)` with no intervening write on `K` (captured
by the frame hypotheses: the entry found for `K` in the observed map is
the one the set stored) returns `Some(V)` strictly before `t0 + T`, and
at or after `t0 + T` returns `None` and removes the entry; `map_set(K, V,
None)` stores an entry that `map_get` returns at any later time. -/
theorem map_set_get_ttl (m mObs mObsNoTtl : SharedMap) (k v : Bytes) (T t0 t : Nat)
    (hframe : mapFind mObs k = mapFind (map_set m t0 k v (some T)) k)
    (hframeNoTtl : mapFind mObsNoTtl k = mapFind (map_set m t0 k v none) k) :
    mapFind (map_set m t0 k v (some T)) k = some ⟨v, some (t0 + T)⟩
    ∧ (t < t0 + T → (map_get mObs t k).1 = some v)
    ∧ (t0 + T ≤ t →
        (map_get mObs t k).1 = none ∧ mapFind (map_get mObs t k).2 k = none)
    ∧ (map_get mObsNoTtl t k).1 = some v := by
  have hset : mapFind (map_set m t0 k v (some T)) k = some ⟨v, some (t0 + T)⟩ := by
    simp [map_set, mapFind_mapInsert_self]
  have hsetNone : mapFind (map_set m t0 k v none) k = some ⟨v, none⟩ := by
    simp [map_set, mapFind_mapInsert_self]
  rw [hset] at hframe
  rw [hsetNone] at hframeNoTtl
  refine ⟨hset, ?_, ?_, ?_⟩
  · intro hlt
    simp [map_get, hframe, Nat.not_le.mpr hlt]
  · intro hge
    simp [map_get, hframe, hge, mapFind_mapErase_self]
  · simp [map_get, hframeNoTtl]

/-- Witness for `map_set_get_ttl` at concrete inputs. -/
theorem map_set_get_ttl_witness :
    mapFind (map_set [] 10 [0] [1] (some 5)) [0] = some ⟨[1], some 15⟩
    ∧ (12 < 15 → (map_get (map_set [] 10 [0] [1] (some 5)) 12 [0]).1 = some [1])
    ∧ (15 ≤ 12 →
        (map_get (map_set [] 10 [0] [1] (some 5)) 12 [0]).1 = none
        ∧ mapFind (map_get (map_set [] 10 [0] [1] (some 5)) 12 [0]).2 [0] = none)
    ∧ (map_get (map_set [] 10 [0] [1] none) 12 [0]).1 = some [1] :=
  map_set_get_ttl [] (map_set [] 10 [0] [1] (some 5)) (map_set [] 10 [0] [1] none)
    [0] [1] 5 10 12 rfl rfl

/-- Claim C3: `Manager::recycle` clears both the UDP and the TCP fd map of
the isolate's `HostHelper`, and leaves the config text, the next-pool
handle and the shared-map handle (and the plugin component itself)
unchanged, so the next acquire of the recycled isolate observes empty
`udp_fds` and `tcp_fds` whatever the previous request left open. -/
theorem recycle_clears_fd_maps (obj : PluginInstance × StoreM) :
    (Manager.recycle obj).2.data.udp_helper.fd_map = []
    ∧ (Manager.recycle obj).2.data.tcp_helper.fd_map = []
    ∧ (Manager.recycle obj).2.data.raw_config = obj.2.data.raw_config
    ∧ (Manager.recycle obj).2.data.next_plugin = obj.2.data.next_plugin
    ∧ (Manager.recycle obj).2.data.plugin_store_map = obj.2.data.plugin_store_map
    ∧ (Manager.recycle obj).1 = obj.1 :=
  ⟨rfl, rfl, rfl, rfl, rfl, rfl⟩

/-- Claim C9: on an open UDP fd, `inner_recv(fd, m)` with a pending
datagram `d` returns exactly the first `m` bytes of `d` (the buffer is
allocated at size `m` and truncated to the received count), so every
successful result has length at most `m`, and `m = 0` yields the empty
byte string rather than an error. -/
theorem udp_recv_truncates (h : UdpHelper) (fd sock m : Nat) (d : Bytes)
    (hopen : fdFind h.fd_map fd = some sock) :
    h.inner_recv fd m (.ok d) = .ok (d.take m)
    ∧ (∀ out, h.inner_recv fd m (.ok d) = .ok out → out.length ≤ m)
    ∧ h.inner_recv fd 0 (.ok d) = .ok [] := by
  have hrecv : h.inner_recv fd m (.ok d) = .ok (d.take m) := by
    simp [UdpHelper.inner_recv, hopen]
  refine ⟨hrecv, ?_, ?_⟩
  · intro out hout
    rw [hrecv] at hout
    cases hout
    calc (d.take m).length = min m d.length := List.length_take ..
      _ ≤ m := Nat.min_le_left ..
  · simp [UdpHelper.inner_recv, hopen]

/-- Witness for `udp_recv_truncates` at concrete inputs. -/
theorem udp_recv_truncates_witness :
    UdpHelper.inner_recv ⟨[(3, 3)]⟩ 3 2 (.ok [5, 6, 7]) = .ok [5, 6]
    ∧ (∀ out, UdpHelper.inner_recv ⟨[(3, 3)]⟩ 3 2 (.ok [5, 6, 7]) = .ok out →
        out.length ≤ 2)
    ∧ UdpHelper.inner_recv ⟨[(3, 3)]⟩ 3 0 (.ok [5, 6, 7]) = .ok [] := by
  have h := udp_recv_truncates ⟨[(3, 3)]⟩ 3 3 2 [5, 6, 7] rfl
  exact ⟨h.1, h.2.1, h.2.2⟩

/-- Claim C10: `PluginChain::new` on an empty config list does not return
an error value — the fold leaves the accumulator at `None` and
`.expect("no plugin set")` panics — and whenever it returns normally the
built chain contains at least one pool. -/
theorem chain_new_empty_panics (fsRead : Path → Except String Bytes)
    (validate : Bytes → String → Except String Unit) (plugin_dir : Path) :
    pluginChainNew fsRead validate plugin_dir [] = .noPluginSet
    ∧ (∀ configs chain,
        pluginChainNew fsRead validate plugin_dir configs = .built chain →
          1 ≤ chain.poolList.length) := by
  refine ⟨rfl, ?_⟩
  intro configs chain _
  exact poolList_length_pos chain

/-- Witness for `chain_new_empty_panics` at concrete inputs, using both
the empty-list part and the built-chain part. -/
theorem chain_new_empty_panics_witness :
    pluginChainNew (fun _ => .ok [0]) (fun _ _ => .ok ()) "plugins" [] = .noPluginSet
    ∧ 1 ≤ (PluginPoolM.mk [0] "cfg" none).poolList.length := by
  have h := chain_new_empty_panics (fun _ => .ok [0]) (fun _ _ => .ok ()) "plugins"
  refine ⟨h.1, h.2 [⟨"a", none, "cfg"⟩] (.mk [0] "cfg" none) rfl⟩

/-- Claim C4: `call_next_plugin(P)` returns `None` exactly when
`next_pool` is absent; otherwise it acquires an instance from the pool,
invokes its `run`, returns `Some` of that run's guest result (success
bytes or `PluginError`) when the run completes, and in every case in
which an instance was acquired, the instance is back in the pool when the
call returns — on the run-failure path as well as on success (a failed
acquisition leaves the pool as it was). -/
theorem call_next_plugin_spec (next : Option PoolSt) (packet : Bytes) :
    ((call_next_plugin next packet).1 = .ok none ↔ next = none)
    ∧ (next = none → call_next_plugin next packet = (.ok none, none))
    ∧ (∀ pool, next = some pool →
        (∀ e, pool.acquire = .error e →
          call_next_plugin next packet = (.error (.pool e), some pool))
        ∧ (∀ inst pool', pool.acquire = .ok (inst, pool') →
            (call_next_plugin next packet).2 = some (pool'.giveBack inst)
            ∧ inst ∈ (pool'.giveBack inst).idle
            ∧ (∀ e, inst.run packet = .error e →
                (call_next_plugin next packet).1 = .error (.run e))
            ∧ (∀ r, inst.run packet = .ok r →
                (call_next_plugin next packet).1 = .ok (some r)))) := by
  refine ⟨?_, ?_, ?_⟩
  · constructor
    · intro hok
      cases next with
      | none => rfl
      | some pool =>
        exfalso
        cases hacq : pool.acquire with
        | error e => simp [call_next_plugin, hacq] at hok
        | ok p =>
          obtain ⟨inst, pool'⟩ := p
          cases hrun : inst.run packet with
          | error e => simp [call_next_plugin, hacq, hrun] at hok
          | ok r => simp [call_next_plugin, hacq, hrun] at hok
    · intro hnone
      subst hnone
      rfl
  · intro hnone
    subst hnone
    rfl
  · intro pool hpool
    subst hpool
    refine ⟨?_, ?_⟩
    · intro e hacq
      simp [call_next_plugin, hacq]
    · intro inst pool' hacq
      refine ⟨?_, ?_, ?_, ?_⟩
      · cases hrun : inst.run packet with
        | error e => simp [call_next_plugin, hacq, hrun]
        | ok r => simp [call_next_plugin, hacq, hrun]
      · exact List.mem_cons_self ..
      · intro e hrun
        simp [call_next_plugin, hacq, hrun]
      · intro r hrun
        simp [call_next_plugin, hacq, hrun]

/-- Witness for `call_next_plugin_spec` at concrete inputs: a pool with
one idle instance whose run succeeds. -/
theorem call_next_plugin_spec_witness :
    (call_next_plugin (some cnpPool) [1]).1 = .ok (some (.ok [7]))
    ∧ (call_next_plugin (some cnpPool) [1]).2 = some (cnpPoolDrained.giveBack cnpInst)
    ∧ cnpInst ∈ (cnpPoolDrained.giveBack cnpInst).idle := by
  have h := (call_next_plugin_spec (some cnpPool) [1]).2.2 cnpPool rfl
  have h2 := h.2 cnpInst cnpPoolDrained rfl
  exact ⟨h2.2.2.2 (.ok [7]) rfl, h2.1, h2.2.1⟩

/-- Claim C5: TCP pseudo-fd lifecycle within one `HostState`: `accept` on
an fd bound to a connected stream is `EBADF`; `read`, `write` and `flush`
on an fd bound to a listening socket are `EBADF`; after `close(fd)` the
fd number is unbound and every operation on it (accept, write, flush,
read) is `EBADF` until a fresh bind, connect or accept binds that number
again, after which the number is bound once more. -/
theorem tcp_fd_lifecycle (h : TcpHelper) (fd : Nat) :
    (∀ sock os, fdFind h.fd_map fd = some (.stream sock) →
        (h.inner_accept fd os).1 = .error EBADF)
    ∧ (∀ sock, fdFind h.fd_map fd = some (.listener sock) →
        (∀ buf os, h.inner_write fd buf os = .error EBADF)
        ∧ (∀ os, h.inner_flush fd os = .error EBADF)
        ∧ (∀ n os, h.inner_read fd n os = .error EBADF))
    ∧ fdFind (h.close fd).fd_map fd = none
    ∧ (∀ h' : TcpHelper, fdFind h'.fd_map fd = none →
        (∀ os, (h'.inner_accept fd os).1 = .error EBADF)
        ∧ (∀ buf os, h'.inner_write fd buf os = .error EBADF)
        ∧ (∀ os, h'.inner_flush fd os = .error EBADF)
        ∧ (∀ n os, h'.inner_read fd n os = .error EBADF))
    ∧ (∀ h' : TcpHelper,
        fdFind (h'.inner_bind (.ok fd)).2.fd_map fd = some (.listener fd))
    ∧ (∀ h' : TcpHelper,
        fdFind (h'.inner_connect (.ok fd)).2.fd_map fd = some (.stream fd))
    ∧ (∀ (h' : TcpHelper) (lfd sock : Nat) (peer : Addr),
        fdFind h'.fd_map lfd = some (.listener sock) →
          fdFind (h'.inner_accept lfd (.conn fd peer true)).2.fd_map fd =
            some (.stream fd)) := by
  refine ⟨?_, ?_, ?_, ?_, ?_, ?_, ?_⟩
  · intro sock os hfind
    simp [TcpHelper.inner_accept, hfind]
  · intro sock hfind
    refine ⟨?_, ?_, ?_⟩
    · intro buf os
      simp [TcpHelper.inner_write, TcpHelper.get_tcp_stream, hfind]
    · intro os
      simp [TcpHelper.inner_flush, TcpHelper.get_tcp_stream, hfind]
    · intro n os
      simp [TcpHelper.inner_read, TcpHelper.get_tcp_stream, hfind]
  · exact fdFind_fdErase_self ..
  · intro h' hfind
    refine ⟨?_, ?_, ?_, ?_⟩
    · intro os
      simp [TcpHelper.inner_accept, hfind]
    · intro buf os
      simp [TcpHelper.inner_write, TcpHelper.get_tcp_stream, hfind]
    · intro os
      simp [TcpHelper.inner_flush, TcpHelper.get_tcp_stream, hfind]
    · intro n os
      simp [TcpHelper.inner_read, TcpHelper.get_tcp_stream, hfind]
  · intro h'
    simp [TcpHelper.inner_bind, fdFind_fdInsert_self]
  · intro h'
    simp [TcpHelper.inner_connect, fdFind_fdInsert_self]
  · intro h' lfd sock peer hfind
    simp [TcpHelper.inner_accept, hfind, fdFind_fdInsert_self]

/-- Witness for `tcp_fd_lifecycle` at concrete inputs: fd 4 is a
connected stream, fd 5 a listener; fd 4 is then closed and rebound. -/
theorem tcp_fd_lifecycle_witness :
    (TcpHelper.inner_accept ⟨[(4, .stream 4), (5, .listener 5)]⟩ 4 (.err 1)).1 =
      .error EBADF
    ∧ TcpHelper.inner_flush ⟨[(4, .stream 4), (5, .listener 5)]⟩ 5 (.ok ()) =
      .error EBADF
    ∧ fdFind (TcpHelper.close ⟨[(4, .stream 4), (5, .listener 5)]⟩ 4).fd_map 4 = none
    ∧ TcpHelper.inner_write ⟨[(5, .listener 5)]⟩ 4 [1] (.ok 1) = .error EBADF
    ∧ fdFind (TcpHelper.inner_bind ⟨[(5, .listener 5)]⟩ (.ok 4)).2.fd_map 4 =
      some (.listener 4) := by
  have h4 := tcp_fd_lifecycle ⟨[(4, .stream 4), (5, .listener 5)]⟩ 4
  have h5 := tcp_fd_lifecycle ⟨[(4, .stream 4), (5, .listener 5)]⟩ 5
  refine ⟨h4.1 4 (.err 1) rfl, (h5.2.1 5 rfl).2.1 (.ok ()), h4.2.2.1, ?_, ?_⟩
  · exact ((tcp_fd_lifecycle ⟨[(5, .listener 5)]⟩ 4).2.2.2.1 ⟨[(5, .listener 5)]⟩
      rfl).2.1 [1] (.ok 1)
  · exact (tcp_fd_lifecycle ⟨[(5, .listener 5)]⟩ 4).2.2.2.2.1 ⟨[(5, .listener 5)]⟩

theorem poolList_mk (b : Bytes) (cfg : String) (next : Option PluginPoolM) :
    (PluginPoolM.mk b cfg next).poolList = (b, cfg) :: optPoolList next := by
  cases next <;> rfl

theorem foldChain_append (fsRead : Path → Except String Bytes)
    (validate : Bytes → String → Except String Unit) (plugin_dir : Path)
    (xs : List PluginConfig) (c : PluginConfig) (acc : Option PluginPoolM) :
    foldChain fsRead validate plugin_dir (xs ++ [c]) acc =
      (foldChain fsRead validate plugin_dir xs acc).bind
        (fun acc' => (stepBuild fsRead validate plugin_dir acc' c).map some) := by
  induction xs generalizing acc with
  | nil =>
    cases h : stepBuild fsRead validate plugin_dir acc c <;>
      simp [foldChain, h, Except.bind, Except.map]
  | cons x xs ih =>
    simp only [List.cons_append, foldChain]
    cases h : stepBuild fsRead validate plugin_dir acc x with
    | error e => simp [Except.bind]
    | ok p => simpa [Except.bind] using ih (some p)

theorem foldChain_reverse_spec (fsRead : Path → Except String Bytes)
    (validate : Bytes → String → Except String Unit) (plugin_dir : Path)
    (cs : List PluginConfig) :
    ∀ (acc r : Option PluginPoolM),
      foldChain fsRead validate plugin_dir cs.reverse acc = .ok r →
      ∃ l, specChainPools fsRead plugin_dir cs = some l
        ∧ optPoolList r = l ++ optPoolList acc := by
  induction cs with
  | nil =>
    intro acc r hfold
    cases hfold
    exact ⟨[], rfl, rfl⟩
  | cons c rest ih =>
    intro acc r hfold
    rw [List.reverse_cons, foldChain_append] at hfold
    cases hrest : foldChain fsRead validate plugin_dir rest.reverse acc with
    | error e => rw [hrest] at hfold; cases hfold
    | ok acc' =>
      rw [hrest] at hfold
      simp only [Except.bind] at hfold
      cases hstep : stepBuild fsRead validate plugin_dir acc' c with
      | error e => rw [hstep] at hfold; cases hfold
      | ok p =>
        rw [hstep] at hfold
        simp only [Except.map] at hfold
        cases hfold
        obtain ⟨l', hspec, hlist⟩ := ih acc acc' hrest
        unfold stepBuild at hstep
        split at hstep
        · cases hstep
        · rename_i b hfs
          split at hstep
          · cases hstep
          · rename_i u hval
            cases hstep
            refine ⟨(b, c.config) :: l', ?_, ?_⟩
            · simp [specChainPools, hfs, hspec]
            · show (PluginPoolM.mk b c.config acc').poolList =
                ((b, c.config) :: l') ++ optPoolList acc
              rw [poolList_mk, hlist, List.cons_append]

/-- Claim C7: for a non-empty config list `[c1..cn]`, `PluginChain::new`
folds over the reversed list so that the pool built for `ci` receives the
already-built pool of `c(i+1)` as its `next_plugin`, the pool of `cn` has
no `next_plugin`, and the head of the chain is the pool of `c1`:
following the `next_plugin` references from the built chain visits
exactly one pool per config, in config order, each carrying that config's
module bytes and config text (`specChainPools`); the references form a
line — acyclic by the inductive structure of `PluginPoolM`. -/
theorem chain_build_order (fsRead : Path → Except String Bytes)
    (validate : Bytes → String → Except String Unit) (plugin_dir : Path)
    (c : PluginConfig) (cs : List PluginConfig) (p : PluginPoolM)
    (hbuilt : pluginChainNew fsRead validate plugin_dir (c :: cs) = .built p) :
    specChainPools fsRead plugin_dir (c :: cs) = some p.poolList := by
  unfold pluginChainNew at hbuilt
  split at hbuilt
  · cases hbuilt
  · cases hbuilt
  · rename_i chain hfold
    cases hbuilt
    obtain ⟨l, hspec, hlist⟩ :=
      foldChain_reverse_spec fsRead validate plugin_dir (c :: cs) none (some p) hfold
    simp only [optPoolList, List.append_nil] at hlist
    rw [hspec, hlist]

/-- Witness for `chain_build_order` at concrete inputs: two configs
build a two-pool line in config order. -/
theorem chain_build_order_witness :
    specChainPools (fun p => .ok [p.length]) "d"
        [⟨"a", none, "ca"⟩, ⟨"b", none, "cb"⟩] =
      some [([8], "ca"), ([8], "cb")] := by
  have h := chain_build_order (fun p => .ok [p.length]) (fun _ _ => .ok ()) "d"
      ⟨"a", none, "ca"⟩ [⟨"b", none, "cb"⟩]
      (.mk [8] "ca" (some (.mk [8] "cb" none))) rfl
  simpa [PluginPoolM.poolList] using h

/-- Claim C1, counterexample: `handle_dns` does fail to produce a
response — a pool-acquisition failure is returned as an error, not as a
SERVFAIL response. -/
theorem handle_dns_can_fail :
    handle_dns (.error "get plugin from pool failed") exMessage [0] =
      .error (.pluginPool "get plugin from pool failed")
    ∧ (handle_dns (.error "get plugin from pool failed") exMessage [0]).isOk = false :=
  ⟨rfl, rfl⟩

/-- Claim C1, amended: `handle_dns` produces a response only when the
plugin's run completes — success bytes that decode are returned as is,
and a guest `PluginError` yields the SERVFAIL synthesis from the request;
pool-acquisition failure, host-side plugin-runtime failure and failure to
decode the plugin's returned bytes make `handle_dns` itself return an
error, and it is `ServerInner::handle` that then synthesizes the SERVFAIL
response from the request and responds with it. -/
theorem handle_dns_outcomes (getPlugin : Except String PluginInstance)
    (msg : Message) (packet : Bytes) :
    (∀ e, getPlugin = .error e →
      handle_dns getPlugin msg packet = .error (.pluginPool e)
      ∧ serverRespondBytes getPlugin msg packet = (servfailMessage msg).toVec)
    ∧ (∀ plugin, getPlugin = .ok plugin →
        (∀ e, plugin.run packet = .error e →
          handle_dns getPlugin msg packet = .error (.pluginRun e)
          ∧ serverRespondBytes getPlugin msg packet = (servfailMessage msg).toVec)
        ∧ (∀ perr, plugin.run packet = .ok (.error perr) →
            handle_dns getPlugin msg packet =
              .ok (servfailMessage msg, (servfailMessage msg).toVec)
            ∧ serverRespondBytes getPlugin msg packet = (servfailMessage msg).toVec)
        ∧ (∀ data, plugin.run packet = .ok (.ok data) →
            (Message.fromVec data = none →
              handle_dns getPlugin msg packet =
                .error (.proto "decode response dns message failed")
              ∧ serverRespondBytes getPlugin msg packet = (servfailMessage msg).toVec)
            ∧ (∀ rm, Message.fromVec data = some rm →
                handle_dns getPlugin msg packet = .ok (rm, data)
                ∧ serverRespondBytes getPlugin msg packet = data))) := by
  constructor
  · intro e hget
    subst hget
    exact ⟨rfl, rfl⟩
  · intro plugin hget
    subst hget
    refine ⟨?_, ?_, ?_⟩
    · intro e hrun
      constructor
      · simp [handle_dns, hrun]
      · simp [serverRespondBytes, handle_dns, hrun]
    · intro perr hrun
      constructor
      · simp [handle_dns, hrun]
      · simp [serverRespondBytes, handle_dns, hrun]
    · intro data hrun
      constructor
      · intro hdec
        constructor
        · simp [handle_dns, hrun, hdec]
        · simp [serverRespondBytes, handle_dns, hrun, hdec]
      · intro rm hdec
        constructor
        · simp [handle_dns, hrun, hdec]
        · simp [serverRespondBytes, handle_dns, hrun, hdec]

/-- Witness for `handle_dns_outcomes` at concrete inputs: a guest
`PluginError` run and a pool failure. -/
theorem handle_dns_outcomes_witness :
    (handle_dns (.ok exErrPlugin) exMessage [0] =
      .ok (servfailMessage exMessage, (servfailMessage exMessage).toVec))
    ∧ serverRespondBytes (.error "pool gone") exMessage [0] =
      (servfailMessage exMessage).toVec := by
  refine ⟨?_, ?_⟩
  · exact (((handle_dns_outcomes (.ok exErrPlugin) exMessage [0]).2 exErrPlugin
      rfl).2.1 ⟨1, "x"⟩ rfl).1
  · exact ((handle_dns_outcomes (.error "pool gone") exMessage [0]).1 "pool gone" rfl).2

/-- Claim C6, counterexample: the SERVFAIL synthesis only flips the
message type and the response code; a request message that carries an
answer record keeps it, so the synthesized response's answer count is
not 0. -/
theorem servfail_keeps_answers :
    handle_dns (.ok exErrPlugin) exAnswerMessage [0] =
      .ok (servfailMessage exAnswerMessage, (servfailMessage exAnswerMessage).toVec)
    ∧ (servfailMessage exAnswerMessage).answers.length = 1
    ∧ ¬ (servfailMessage exAnswerMessage).answers.length = 0 :=
  ⟨rfl, rfl, by decide⟩

/-- Claim C6, amended: when the head plugin's run returns a
`PluginError`, `handle_dns` synthesizes the response by mutating the
request message — type set to Response, response code set to SERVFAIL —
and re-serializing; the response carries the same question section and
the same ID as the request, and its answer count equals the request's
answer count (0 for an ordinary request that carries no answer
records). -/
theorem servfail_synthesis (plugin : PluginInstance) (msg : Message)
    (packet : Bytes) (perr : PluginError)
    (hrun : plugin.run packet = .ok (.error perr)) :
    handle_dns (.ok plugin) msg packet =
      .ok (servfailMessage msg, (servfailMessage msg).toVec)
    ∧ (servfailMessage msg).messageType = .response
    ∧ (servfailMessage msg).responseCode = SERVFAIL
    ∧ (servfailMessage msg).queries = msg.queries
    ∧ (servfailMessage msg).id = msg.id
    ∧ (servfailMessage msg).answers.length = msg.answers.length
    ∧ (msg.answers = [] → (servfailMessage msg).answers.length = 0) := by
  refine ⟨?_, rfl, rfl, rfl, rfl, rfl, ?_⟩
  · simp [handle_dns, hrun]
  · intro hempty
    simp [servfailMessage, hempty]

/-- Witness for `servfail_synthesis` at concrete inputs. -/
theorem servfail_synthesis_witness :
    handle_dns (.ok exErrPlugin) exMessage [0] =
      .ok (servfailMessage exMessage, (servfailMessage exMessage).toVec)
    ∧ (servfailMessage exMessage).messageType = .response
    ∧ (servfailMessage exMessage).responseCode = SERVFAIL
    ∧ (servfailMessage exMessage).queries = exMessage.queries
    ∧ (servfailMessage exMessage).id = exMessage.id
    ∧ (servfailMessage exMessage).answers.length = 0 := by
  have h := servfail_synthesis exErrPlugin exMessage [0] ⟨1, "x"⟩ rfl
  exact ⟨h.1, h.2.1, h.2.2.1, h.2.2.2.1, h.2.2.2.2.1, h.2.2.2.2.2.2 rfl⟩

/-- Claim C8, counterexample: when `plugin_path` is present the module is
loaded from `plugin_path + ".wasm"`, not from the given `plugin_path`
itself: with a file system that only has the file at the given path
`/x/custom`, chain construction fails, while one that has
`/x/custom.wasm` succeeds. -/
theorem plugin_path_appends_wasm :
    resolvePluginPath "dir" ⟨"n", some "/x/custom", "cfg"⟩ = "/x/custom.wasm"
    ∧ ¬ resolvePluginPath "dir" ⟨"n", some "/x/custom", "cfg"⟩ = "/x/custom"
    ∧ pluginChainNew (fun p => if p = "/x/custom" then .ok [1] else .error "missing")
        (fun _ _ => .ok ()) "dir" [⟨"n", some "/x/custom", "cfg"⟩] = .failed "missing"
    ∧ pluginChainNew (fun p => if p = "/x/custom.wasm" then .ok [1] else .error "missing")
        (fun _ _ => .ok ()) "dir" [⟨"n", some "/x/custom", "cfg"⟩] =
      .built (.mk [1] "cfg" none) :=
  ⟨rfl, by decide, by rfl, by rfl⟩

/-- Claim C8, amended: with `plugin_path` absent the module file is
`plugin_dir` joined with `name + ".wasm"`; with `plugin_path` present it
overrides the `plugin_dir`/name default, and the module is loaded from
the given `plugin_path` with `".wasm"` appended; in both cases the build
step reads exactly the resolved path. -/
theorem plugin_path_resolution (plugin_dir : Path) (cfg : PluginConfig) :
    (cfg.plugin_path = none →
      resolvePluginPath plugin_dir cfg = pathJoin plugin_dir (cfg.name ++ ".wasm"))
    ∧ (∀ p, cfg.plugin_path = some p →
        resolvePluginPath plugin_dir cfg = p ++ ".wasm")
    ∧ (∀ fsRead validate next_plugin e,
        fsRead (resolvePluginPath plugin_dir cfg) = .error e →
          stepBuild fsRead validate plugin_dir next_plugin cfg = .error e)
    ∧ (∀ fsRead validate next_plugin b,
        fsRead (resolvePluginPath plugin_dir cfg) = .ok b →
          validate b cfg.config = .ok () →
            stepBuild fsRead validate plugin_dir next_plugin cfg =
              .ok (.mk b cfg.config next_plugin)) := by
  refine ⟨?_, ?_, ?_, ?_⟩
  · intro hnone
    simp [resolvePluginPath, hnone]
  · intro p hsome
    simp [resolvePluginPath, hsome]
  · intro fsRead validate next_plugin e hfs
    simp [stepBuild, hfs]
  · intro fsRead validate next_plugin b hfs hval
    simp [stepBuild, hfs, hval]

/-- Witness for `plugin_path_resolution` at concrete inputs, using both
the default and the override branch. -/
theorem plugin_path_resolution_witness :
    resolvePluginPath "plugins" ⟨"proxy", none, "cfg"⟩ = pathJoin "plugins" "proxy.wasm"
    ∧ resolvePluginPath "plugins" ⟨"proxy", some "/x/custom", "cfg"⟩ = "/x/custom.wasm" := by
  refine ⟨?_, ?_⟩
  · have h := (plugin_path_resolution "plugins" ⟨"proxy", none, "cfg"⟩).1 rfl
    simpa using h
  · have h := (plugin_path_resolution "plugins" ⟨"proxy", some "/x/custom", "cfg"⟩).2.1
      "/x/custom" rfl
    simpa using h

end Rubydns
